import Mathlib

/-!
# Verification of the Psyduck constrained code-execution sandbox

Shallow embedding of the sandbox core of the repository: the
`executeCode` request handler with its single-file and multi-file
(virtual module system) execution paths, the virtual `require`
implementation (`requireVirtual`), the path normalizer, the module
cache, the console-capturing sandbox context and the result
normalization.

Executed JavaScript is represented by a small statement/expression
language covering the constructs the executed programs use (console
calls, `require`, `module.exports`, object and arrow-function
literals, assignment, `throw new Error`, `while (true)`); the engine's
parsing of source text into such programs is an explicit parameter
`p : String → List Stmt` of the interpreter, mirroring `new vm.Script`.
Wall-clock budgets are modelled as fuel: the engine interrupts a unit
that exceeds its budget with the engine's timed-out error, which the
handler's catch-all turns into a normal error result.
-/

set_option maxRecDepth 100000

/-! ## Request values

JSON-ish values as they arrive in `req.body`. Mutual inductives (instead
of a nested `List`) keep all recursions over them structural. -/

mutual
inductive JAny where
  | aundefined
  | anull
  | abool (b : Bool)
  | anum (n : Int)
  | astr (s : String)
  | aarr (xs : JList)
  | aobj (fs : JFields)
deriving DecidableEq

inductive JList where
  | jnil
  | jcons (hd : JAny) (tl : JList)
deriving DecidableEq

inductive JFields where
  | fnil
  | fcons (name : String) (v : JAny) (tl : JFields)
deriving DecidableEq
end

/-- Property lookup in an object's field list (`obj[key]`). -/
def jfGet : JFields → String → Option JAny
  | .fnil, _ => none
  | .fcons k v rest, key => if key = k then some v else jfGet rest key

/-- JS property access `v.name` on a request value: objects look the
field up, any other value yields `undefined` (the handler only accesses
fields of values it has already checked to be truthy). -/
def getFieldJ : JAny → String → JAny
  | .aobj fs, k => (jfGet fs k).getD .aundefined
  | _, _ => .aundefined

/-- JS truthiness of a request value. -/
def truthyJ : JAny → Bool
  | .aundefined => false
  | .anull => false
  | .abool b => b
  | .anum n => n ≠ 0
  | .astr s => s ≠ ""
  | .aarr _ => true
  | .aobj _ => true

/-- `Array.isArray`. -/
def isArrJ : JAny → Bool
  | .aarr _ => true
  | _ => false

/-- `typeof v === "string"`. -/
def isStrJ : JAny → Bool
  | .astr _ => true
  | _ => false

mutual
/-- JS `String(v)` coercion of a request value. -/
def jsToStringJ : JAny → String
  | .aundefined => "undefined"
  | .anull => "null"
  | .abool b => if b then "true" else "false"
  | .anum n => toString n
  | .astr s => s
  | .aarr xs => jlistToString xs
  | .aobj _ => "[object Object]"

/-- `Array.prototype.toString`: elements joined by commas, with
`null`/`undefined` elements rendered empty. -/
def jlistToString : JList → String
  | .jnil => ""
  | .jcons h .jnil => jelemToString h
  | .jcons h t => jelemToString h ++ "," ++ jlistToString t

/-- One array element inside a join (`null`/`undefined` are empty). -/
def jelemToString : JAny → String
  | .aundefined => ""
  | .anull => ""
  | .abool b => if b then "true" else "false"
  | .anum n => toString n
  | .astr s => s
  | .aarr xs => jlistToString xs
  | .aobj _ => "[object Object]"
end

/-! ## The embedded JavaScript fragment -/

mutual
/-- Expressions of the executed programs. -/
inductive SExpr where
  | enum (n : Int)
  | estr (s : String)
  | ebool (b : Bool)
  | eundefined
  | ident (x : String)
  | eprop (e : SExpr) (name : String)
  | eadd (a b : SExpr)
  | ecall (f : SExpr) (args : List SExpr)
  | elam (params : List String) (body : List Stmt)
  | eobj (fields : List (String × SExpr))

/-- Statements of the executed programs. -/
inductive Stmt where
  | sexpr (e : SExpr)
  | sconst (x : String) (e : SExpr)
  | sdestruct (names : List String) (e : SExpr)
  | sassign (x : String) (e : SExpr)
  | ssetProp (obj : SExpr) (name : String) (e : SExpr)
  | slog (args : List SExpr)
  | swarn (args : List SExpr)
  | serror (args : List SExpr)
  | sthrow (msg : String)
  | sret (e : SExpr)
  | swhileTrue (body : List Stmt)
end

/-- Runtime values inside the sandbox context. Objects are references
into the per-request heap, so JS reference equality is address
equality. `requireFn` is the injected `requireVirtual` host function. -/
inductive JsVal where
  | undefined
  | vnull
  | vbool (b : Bool)
  | vnum (n : Int)
  | vnan
  | vstr (s : String)
  | vref (addr : Nat)
  | closure (params : List String) (body : List Stmt)
  | requireFn

/-- A thrown `Error`: only its `message` is observed by the handler. -/
structure JsErr where
  message : String
deriving DecidableEq

/-- The per-request sandbox state: the virtual file table and entry
path of workspace mode, the object heap, the module cache
(`moduleCache`, canonical path to module-object address), the captured
console lines, the sandbox's global bindings, the current-module
pointer (`sandbox.__currentModulePath`) and a ghost trace `runs` of
module bodies that were actually executed. -/
structure SBState where
  files : List (String × String)
  entry : String
  heap : List (List (String × JsVal))
  cache : List (String × Nat)
  logs : List String
  globals : List (String × JsVal)
  currentModulePath : Option String
  runs : List String

/-! ## String-object and heap helpers -/

/-- JS-object lookup in an association list. -/
def jsGet {α : Type} : List (String × α) → String → Option α
  | [], _ => none
  | (k, v) :: rest, key => if key = k then some v else jsGet rest key

/-- JS-object assignment: overwrite an existing key, else add it. -/
def jsSet {α : Type} : List (String × α) → String → α → List (String × α)
  | [], key, v => [(key, v)]
  | (k, w) :: rest, key, v =>
      if key = k then (key, v) :: rest else (k, w) :: jsSet rest key v

/-- The heap object at an address (empty for a dangling address). -/
def heapObj (st : SBState) (addr : Nat) : List (String × JsVal) :=
  (st.heap.get? addr).getD []

/-- Read a property of the heap object at `addr` (`undefined` if absent). -/
def heapPropAt (st : SBState) (addr : Nat) (name : String) : JsVal :=
  (jsGet (heapObj st addr) name).getD .undefined

/-- Write a property of the heap object at `addr`. -/
def heapSetProp (st : SBState) (addr : Nat) (name : String) (v : JsVal) : SBState :=
  { st with heap := st.heap.set addr (jsSet (heapObj st addr) name v) }

/-! ## Path manipulation (the naive resolver of `requireVirtual`) -/

/-- `String(p).replace(/\\/g, '/')`. -/
def normalizeSlashes (s : String) : String :=
  String.mk (s.data.map (fun c => if c = '\\' then '/' else c))

/-- List-level string prefix test. -/
def startsWithChars : List Char → List Char → Bool
  | [], _ => true
  | _ :: _, [] => false
  | p :: ps, c :: cs => p = c && startsWithChars ps cs

/-- List-level string suffix test. -/
def endsWithChars (p s : List Char) : Bool :=
  startsWithChars p.reverse s.reverse

/-- `cleaned.startsWith('./') || cleaned.startsWith('../')`: the sole
shape check a specifier must pass. -/
def startsRel (s : String) : Bool :=
  startsWithChars ('.' :: '/' :: []) s.data ||
    startsWithChars ('.' :: '.' :: '/' :: []) s.data

/-- `s.split(c)` with JS semantics (`''.split('/') == ['']`). -/
def splitOnChar (c : Char) : List Char → List (List Char)
  | [] => [[]]
  | x :: xs =>
    let r := splitOnChar c xs
    if x = c then [] :: r
    else
      match r with
      | [] => [[x]]
      | h :: t => (x :: h) :: t

/-- `list.join(sep)`. -/
def joinWith (sep : String) : List String → String
  | [] => ""
  | [x] => x
  | x :: xs => x ++ sep ++ joinWith sep xs

/-- `stackTop.split('/').slice(0, -1).join('/')`: the requesting file's
directory. -/
def dirnameJs (s : String) : String :=
  joinWith "/" (((splitOnChar '/' s.data).dropLast).map String.mk)

/-- One global-replace pass of `/\/\.\//g` by `'/'`: collapse `/./`
occurrences left to right, non-overlapping. -/
def replDSChars : List Char → List Char
  | '/' :: '.' :: '/' :: rest => '/' :: replDSChars rest
  | c :: rest => c :: replDSChars rest
  | [] => []

/-- `resolved.replace(/\/\.\//g, '/')`. -/
def replaceDotSlash (s : String) : String :=
  String.mk (replDSChars s.data)

/-- One global-replace pass of `/\/[^\/]+\/\.\.\//g` by `'/'`: at each
`/`, if a nonempty slash-free segment followed by `/../` starts there,
replace the whole match by `/` and continue after it, else move on. The
fuel is the remaining length; every step consumes at least one
character, so the initial length always suffices. -/
def replUDChars : Nat → List Char → List Char
  | 0, l => l
  | _ + 1, [] => []
  | fuel + 1, '/' :: rest =>
    match rest.takeWhile (fun c => c ≠ '/'), rest.dropWhile (fun c => c ≠ '/') with
    | _ :: _, '/' :: '.' :: '.' :: '/' :: rest2 => '/' :: replUDChars fuel rest2
    | _, _ => '/' :: replUDChars fuel rest
  | fuel + 1, c :: rest => c :: replUDChars fuel rest

/-- `·.replace(/\/[^\/]+\/\.\.\//g, '/')`. -/
def replaceUpDir (s : String) : String :=
  String.mk (replUDChars s.data.length s.data)

/-- The canonical target computed by `requireVirtual` for a cleaned
specifier requested from `stackTop`: prepend the requesting directory,
then the two regex replacement passes, in source order. -/
def resolveTarget (stackTop cleaned : String) : String :=
  let baseDir := dirnameJs stackTop
  replaceUpDir (replaceDotSlash ((if baseDir = "" then "" else baseDir ++ "/") ++ cleaned))

/-- `sandbox.__currentModulePath || entry`. -/
def stackTopOf (st : SBState) : String :=
  st.currentModulePath.getD st.entry

/-! ## Runtime value helpers -/

/-- JS `String(v)` of a sandbox value (function sources are opaque). -/
def jsToStringV : JsVal → String
  | .undefined => "undefined"
  | .vnull => "null"
  | .vbool b => if b then "true" else "false"
  | .vnum n => toString n
  | .vnan => "NaN"
  | .vstr s => s
  | .vref _ => "[object Object]"
  | .closure _ _ => "function"
  | .requireFn => "function"

/-- `args.join(' ')` as the captured console performs it:
`null`/`undefined` arguments render empty in a join. -/
def joinArgsJs (vs : List JsVal) : String :=
  joinWith " "
    (vs.map (fun v =>
      match v with
      | .undefined => ""
      | .vnull => ""
      | w => jsToStringV w))

/-- Operands of `+` that force string concatenation. -/
def isStringish : JsVal → Bool
  | .vstr _ => true
  | .vref _ => true
  | .closure _ _ => true
  | .requireFn => true
  | _ => false

/-- JS `ToNumber` on the remaining primitives (`none` is `NaN`). -/
def toNumberOpt : JsVal → Option Int
  | .vnum n => some n
  | .vnull => some 0
  | .vbool b => some (if b then 1 else 0)
  | _ => none

/-- JS `+`: string concatenation when either side is stringish, else
numeric addition (with `NaN` contagion). -/
def jsAdd (a b : JsVal) : JsVal :=
  if isStringish a || isStringish b then .vstr (jsToStringV a ++ jsToStringV b)
  else
    match toNumberOpt a, toNumberOpt b with
    | some x, some y => .vnum (x + y)
    | _, _ => .vnan

/-- Property read `v.name`: heap objects look up, primitives yield
`undefined`, `undefined`/`null` throw a TypeError. -/
def propOfVal (st : SBState) (v : JsVal) (name : String) : Except JsErr JsVal :=
  match v with
  | .vref a => .ok (heapPropAt st a name)
  | .undefined => .error ⟨"Cannot read properties of undefined (reading \x27" ++ name ++ "\x27)"⟩
  | .vnull => .error ⟨"Cannot read properties of null (reading \x27" ++ name ++ "\x27)"⟩
  | _ => .ok .undefined

/-- Destructuring `const {n1, n2, ...} = v`. -/
def destructAll (st : SBState) (v : JsVal) : List String → Except JsErr (List (String × JsVal))
  | [] => .ok []
  | n :: rest =>
    match propOfVal st v n with
    | .error e => .error e
    | .ok pv =>
      match destructAll st v rest with
      | .error e => .error e
      | .ok bs => .ok ((n, pv) :: bs)

/-- Bind call arguments to parameters (missing arguments are
`undefined`, extra arguments are dropped). -/
def bindParams : List String → List JsVal → List (String × JsVal)
  | [], _ => []
  | q :: qs, [] => (q, .undefined) :: bindParams qs []
  | q :: qs, a :: rest => (q, a) :: bindParams qs rest

/-- The engine's budget-expiry error for a unit run under `timeout: tb`. -/
def timeoutMsg (tb : Nat) : String :=
  "Script execution timed out after " ++ toString tb ++ "ms"

/-- Marker for interpreter result kinds that cannot arise (an expression
task answered with a statement result, etc.); kept only to make the
interpreter total. -/
def internalErr : JsErr := ⟨"internal interpreter invariant failure"⟩

/-! ## The interpreter -/

/-- A unit of interpretation work: an expression, an argument list,
object-literal fields, a statement, a statement block, a function call
on already-evaluated values, or a `requireVirtual` invocation. Each
carries the local environment it runs in. -/
inductive JTask where
  | tExpr (env : List (String × JsVal)) (e : SExpr)
  | tExprs (env : List (String × JsVal)) (es : List SExpr)
  | tFields (env : List (String × JsVal)) (fs : List (String × SExpr))
  | tStmt (env : List (String × JsVal)) (s : Stmt)
  | tStmts (env : List (String × JsVal)) (ss : List Stmt)
  | tCall (f : JsVal) (args : List JsVal)
  | tRequire (spec : JsVal)

/-- Result of a task: a value, evaluated argument lists / fields, or a
statement outcome (the updated environment plus `some v` when a
`return v` was executed). -/
inductive TRes where
  | val (v : JsVal)
  | vals (vs : List JsVal)
  | flds (fs : List (String × JsVal))
  | stmtRes (env : List (String × JsVal)) (r : Option JsVal)

/-- Coerce a task result to an expression value. -/
def asVal : Except JsErr TRes → Except JsErr JsVal
  | .ok (.val v) => .ok v
  | .error e => .error e
  | .ok _ => .error internalErr

/-- The state produced by registering a fresh module record for
`target` before its body runs: allocate the `{}` exports object and the
`{ exports }` module record, put the record in `moduleCache`, point
`__currentModulePath` at the module, and trace the body run. -/
def loadState (st : SBState) (target : String) : SBState :=
  { st with
    heap := st.heap ++ [[], [("exports", JsVal.vref st.heap.length)]],
    cache := (target, st.heap.length + 1) :: st.cache,
    currentModulePath := some target,
    runs := st.runs ++ [target] }

/-- The bindings the module wrapper
`((module, exports, require) => { ... })` receives. -/
def loadEnv (st : SBState) : List (String × JsVal) :=
  [("module", JsVal.vref (st.heap.length + 1)),
   ("exports", JsVal.vref st.heap.length),
   ("require", JsVal.requireFn)]

/-- The interpreter. `p` is the engine's parse of source text
(`new vm.Script`), `tb` the configured budget (only the timed-out
message depends on it), and the fuel models the wall-clock budget:
every recursive step consumes one unit, and exhaustion raises the
engine's timed-out error. The `tRequire` case is `requireVirtual` from
the source, line by line. -/
def interp (p : String → List Stmt) (tb : Nat) :
    Nat → SBState → JTask → SBState × Except JsErr TRes
  | 0, st, _ => (st, .error ⟨timeoutMsg tb⟩)
  | fuel + 1, st, task =>
    match task with
    | .tExpr env e =>
      match e with
      | .enum n => (st, .ok (.val (.vnum n)))
      | .estr s => (st, .ok (.val (.vstr s)))
      | .ebool b => (st, .ok (.val (.vbool b)))
      | .eundefined => (st, .ok (.val .undefined))
      | .ident x =>
        match jsGet env x with
        | some v => (st, .ok (.val v))
        | none =>
          match jsGet st.globals x with
          | some v => (st, .ok (.val v))
          | none => (st, .error ⟨x ++ " is not defined"⟩)
      | .eprop obj name =>
        match interp p tb fuel st (.tExpr env obj) with
        | (st1, r1) =>
          match asVal r1 with
          | .error e => (st1, .error e)
          | .ok v =>
            match propOfVal st1 v name with
            | .ok pv => (st1, .ok (.val pv))
            | .error e => (st1, .error e)
      | .eadd a b =>
        match interp p tb fuel st (.tExpr env a) with
        | (st1, r1) =>
          match asVal r1 with
          | .error e => (st1, .error e)
          | .ok va =>
            match interp p tb fuel st1 (.tExpr env b) with
            | (st2, r2) =>
              match asVal r2 with
              | .error e => (st2, .error e)
              | .ok vb => (st2, .ok (.val (jsAdd va vb)))
      | .ecall f args =>
        match interp p tb fuel st (.tExpr env f) with
        | (st1, r1) =>
          match asVal r1 with
          | .error e => (st1, .error e)
          | .ok fv =>
            match interp p tb fuel st1 (.tExprs env args) with
            | (st2, r2) =>
              match r2 with
              | .error e => (st2, .error e)
              | .ok (.vals vs) => interp p tb fuel st2 (.tCall fv vs)
              | .ok _ => (st2, .error internalErr)
      | .elam params body => (st, .ok (.val (.closure params body)))
      | .eobj fields =>
        match interp p tb fuel st (.tFields env fields) with
        | (st1, r1) =>
          match r1 with
          | .error e => (st1, .error e)
          | .ok (.flds fs) =>
            ({ st1 with heap := st1.heap ++ [fs] }, .ok (.val (.vref st1.heap.length)))
          | .ok _ => (st1, .error internalErr)
    | .tExprs env es =>
      match es with
      | [] => (st, .ok (.vals []))
      | e :: rest =>
        match interp p tb fuel st (.tExpr env e) with
        | (st1, r1) =>
          match asVal r1 with
          | .error er => (st1, .error er)
          | .ok v =>
            match interp p tb fuel st1 (.tExprs env rest) with
            | (st2, r2) =>
              match r2 with
              | .error er => (st2, .error er)
              | .ok (.vals vs) => (st2, .ok (.vals (v :: vs)))
              | .ok _ => (st2, .error internalErr)
    | .tFields env fs =>
      match fs with
      | [] => (st, .ok (.flds []))
      | (name, e) :: rest =>
        match interp p tb fuel st (.tExpr env e) with
        | (st1, r1) =>
          match asVal r1 with
          | .error er => (st1, .error er)
          | .ok v =>
            match interp p tb fuel st1 (.tFields env rest) with
            | (st2, r2) =>
              match r2 with
              | .error er => (st2, .error er)
              | .ok (.flds vs) => (st2, .ok (.flds ((name, v) :: vs)))
              | .ok _ => (st2, .error internalErr)
    | .tCall f args =>
      match f with
      | .closure params body =>
        match interp p tb fuel st (.tStmts (bindParams params args) body) with
        | (st1, r1) =>
          match r1 with
          | .error e => (st1, .error e)
          | .ok (.stmtRes _ (some v)) => (st1, .ok (.val v))
          | .ok (.stmtRes _ none) => (st1, .ok (.val .undefined))
          | .ok _ => (st1, .error internalErr)
      | .requireFn => interp p tb fuel st (.tRequire (args.headD .undefined))
      | _ => (st, .error ⟨jsToStringV f ++ " is not a function"⟩)
    | .tRequire specVal =>
      match specVal with
      | .vstr spec =>
        let cleaned := normalizeSlashes spec
        if startsRel cleaned then
          let target := resolveTarget (stackTopOf st) cleaned
          match jsGet st.files target with
          | none => (st, .error ⟨"Module not found: " ++ spec⟩)
          | some content =>
            if content = "" then (st, .error ⟨"Module not found: " ++ spec⟩)
            else
              match jsGet st.cache target with
              | some maddr => (st, .ok (.val (heapPropAt st maddr "exports")))
              | none =>
                match interp p tb fuel (loadState st target) (.tStmts (loadEnv st) (p content)) with
                | (st2, .error e) =>
                  ({ st2 with currentModulePath := st.currentModulePath }, .error e)
                | (st2, .ok _) =>
                  ({ st2 with currentModulePath := st.currentModulePath },
                   .ok (.val (heapPropAt st2 (st.heap.length + 1) "exports")))
        else (st, .error ⟨"Only relative requires are allowed"⟩)
      | _ => (st, .error ⟨"Invalid require"⟩)
    | .tStmt env s =>
      match s with
      | .sexpr e =>
        match interp p tb fuel st (.tExpr env e) with
        | (st1, r1) =>
          match asVal r1 with
          | .error er => (st1, .error er)
          | .ok _ => (st1, .ok (.stmtRes env none))
      | .sconst x e =>
        match interp p tb fuel st (.tExpr env e) with
        | (st1, r1) =>
          match asVal r1 with
          | .error er => (st1, .error er)
          | .ok v => (st1, .ok (.stmtRes ((x, v) :: env) none))
      | .sdestruct names e =>
        match interp p tb fuel st (.tExpr env e) with
        | (st1, r1) =>
          match asVal r1 with
          | .error er => (st1, .error er)
          | .ok v =>
            match destructAll st1 v names with
            | .error er => (st1, .error er)
            | .ok bs => (st1, .ok (.stmtRes (bs ++ env) none))
      | .sassign x e =>
        match interp p tb fuel st (.tExpr env e) with
        | (st1, r1) =>
          match asVal r1 with
          | .error er => (st1, .error er)
          | .ok v =>
            match jsGet env x with
            | some _ => (st1, .ok (.stmtRes (jsSet env x v) none))
            | none =>
              ({ st1 with globals := jsSet st1.globals x v }, .ok (.stmtRes env none))
      | .ssetProp obj name e =>
        match interp p tb fuel st (.tExpr env obj) with
        | (st1, r1) =>
          match asVal r1 with
          | .error er => (st1, .error er)
          | .ok vo =>
            match interp p tb fuel st1 (.tExpr env e) with
            | (st2, r2) =>
              match asVal r2 with
              | .error er => (st2, .error er)
              | .ok v =>
                match vo with
                | .vref a => (heapSetProp st2 a name v, .ok (.stmtRes env none))
                | .undefined =>
                  (st2, .error ⟨"Cannot set properties of undefined (setting \x27" ++ name ++ "\x27)"⟩)
                | .vnull =>
                  (st2, .error ⟨"Cannot set properties of null (setting \x27" ++ name ++ "\x27)"⟩)
                | _ => (st2, .ok (.stmtRes env none))
      | .slog args | .swarn args | .serror args =>
        match interp p tb fuel st (.tExprs env args) with
        | (st1, r1) =>
          match r1 with
          | .error er => (st1, .error er)
          | .ok (.vals vs) =>
            ({ st1 with logs := st1.logs ++ [joinArgsJs vs] }, .ok (.stmtRes env none))
          | .ok _ => (st1, .error internalErr)
      | .sthrow m => (st, .error ⟨m⟩)
      | .sret e =>
        match interp p tb fuel st (.tExpr env e) with
        | (st1, r1) =>
          match asVal r1 with
          | .error er => (st1, .error er)
          | .ok v => (st1, .ok (.stmtRes env (some v)))
      | .swhileTrue body =>
        match interp p tb fuel st (.tStmts env body) with
        | (st1, r1) =>
          match r1 with
          | .error er => (st1, .error er)
          | .ok (.stmtRes env1 (some v)) => (st1, .ok (.stmtRes env1 (some v)))
          | .ok (.stmtRes env1 none) => interp p tb fuel st1 (.tStmt env1 (.swhileTrue body))
          | .ok _ => (st1, .error internalErr)
    | .tStmts env ss =>
      match ss with
      | [] => (st, .ok (.stmtRes env none))
      | s :: rest =>
        match interp p tb fuel st (.tStmt env s) with
        | (st1, r1) =>
          match r1 with
          | .error er => (st1, .error er)
          | .ok (.stmtRes env1 (some v)) => (st1, .ok (.stmtRes env1 (some v)))
          | .ok (.stmtRes env1 none) => interp p tb fuel st1 (.tStmts env1 rest)
          | .ok _ => (st1, .error internalErr)

/-! ## The execution orchestrator -/

/-- Single-file top-level budget: `runInContext(context, { timeout: 500 })`. -/
def singleFileTimeoutMs : Nat := 500

/-- Workspace bootstrap budget: `runInContext(context, { timeout: 800 })`. -/
def workspaceTimeoutMs : Nat := 800

/-- Per-module-load budget: the wrapper script's
`runInContext(context, { timeout: 200 })`. -/
def moduleLoadTimeoutMs : Nat := 200

/-- `!language || !/^js|javascript$/i.test(language)` — the accepted
set. The alternation binds looser than the anchors, so the pattern is
`(^js)|(javascript$)`: any string starting with `js` or ending with
`javascript`, case-insensitively. -/
def lowerChar (c : Char) : Char :=
  if 'A' ≤ c ∧ c ≤ 'Z' then Char.ofNat (c.toNat + 32) else c

/-- ASCII lower-casing, as the regex `i` flag behaves on these inputs. -/
def lowerStr (s : String) : String :=
  String.mk (s.data.map lowerChar)

/-- `/^js|javascript$/i.test(s)`. -/
def languageAccepted (s : String) : Bool :=
  startsWithChars ('j' :: 's' :: []) (lowerStr s).data ||
    endsWithChars ('j' :: 'a' :: 'v' :: 'a' :: 's' :: 'c' :: 'r' :: 'i' :: 'p' :: 't' :: [])
      (lowerStr s).data

/-- The language gate: truthy and matching the regex. -/
def languageOk (lang : JAny) : Bool :=
  truthyJ lang && languageAccepted (jsToStringJ lang)

/-- `workspace && Array.isArray(workspace.files) && typeof
workspace.entryPath === 'string'`. -/
def wellFormedWorkspace (w : JAny) : Bool :=
  truthyJ w && isArrJ (getFieldJ w "files") && isStrJ (getFieldJ w "entryPath")

mutual
/-- Move the caller's `input` value into the sandbox: primitives cross
directly, compound values are allocated on the heap (they arrive as one
host object reference). -/
def allocJ (st : SBState) : JAny → SBState × JsVal
  | .aundefined => (st, .undefined)
  | .anull => (st, .vnull)
  | .abool b => (st, .vbool b)
  | .anum n => (st, .vnum n)
  | .astr s => (st, .vstr s)
  | .aarr xs =>
    match allocJList st 0 xs with
    | (st1, fields) => ({ st1 with heap := st1.heap ++ [fields] }, .vref st1.heap.length)
  | .aobj fs =>
    match allocJFields st fs with
    | (st1, fields) => ({ st1 with heap := st1.heap ++ [fields] }, .vref st1.heap.length)

/-- Array elements become index-keyed properties. -/
def allocJList (st : SBState) (i : Nat) : JList → SBState × List (String × JsVal)
  | .jnil => (st, [])
  | .jcons h t =>
    match allocJ st h with
    | (st1, v) =>
      match allocJList st1 (i + 1) t with
      | (st2, rest) => (st2, (toString i, v) :: rest)

/-- Object fields, in order. -/
def allocJFields (st : SBState) : JFields → SBState × List (String × JsVal)
  | .fnil => (st, [])
  | .fcons k v t =>
    match allocJ st v with
    | (st1, vv) =>
      match allocJFields st1 t with
      | (st2, rest) => (st2, (k, vv) :: rest)
end

/-- The fresh sandbox of one request: empty capture, the caller's
`input` binding, nothing else reachable. -/
def emptySB : SBState :=
  { files := [], entry := "", heap := [], cache := [], logs := [],
    globals := [], currentModulePath := none, runs := [] }

/-- `const sandbox = { console: {...}, input }` as the per-request
initial state. -/
def initialSandbox (inputJ : JAny) : SBState :=
  match allocJ emptySB inputJ with
  | (st1, v) => { st1 with globals := [("input", v)] }

/-- Build the virtual file table: skip entries that are falsy or whose
`path`/`content` is not a string; normalize backslashes; later entries
overwrite earlier ones. -/
def buildFiles (acc : List (String × String)) : JList → List (String × String)
  | .jnil => acc
  | .jcons f rest =>
    let acc1 :=
      if truthyJ f then
        match getFieldJ f "path", getFieldJ f "content" with
        | .astr pth, .astr c => jsSet acc (normalizeSlashes pth) c
        | _, _ => acc
      else acc
    buildFiles acc1 rest

/-- The `data` payload of a normalized execution record. The `id`,
`executionTime` and `memoryUsage` fields are host-clock and host-heap
readings outside the embedding. -/
structure ExecData where
  success : Bool
  output : String
  status : String
  errorMessage : Option String
deriving DecidableEq

/-- The handler's reply: a request-level rejection
(`res.status(400)`), or a normal `res.status(200)` execution record. -/
inductive HttpOutcome where
  | badRequest (message : String)
  | okResult (d : ExecData)
deriving DecidableEq

/-- The destructured `req.body`; absent properties are `undefined`. -/
structure IncomingRequest where
  code : JAny
  language : JAny
  input : JAny
  workspace : JAny

/-- The catch-all error payload: `success: false`, empty `output`,
`status: 'error'`, `errorMessage: err && err.message ? String(err.message)
: 'Unknown error'`. -/
def errDataOf (e : JsErr) : ExecData :=
  { success := false, output := "",
    status := "error",
    errorMessage := some (if e.message = "" then "Unknown error" else e.message) }

/-- The success payload: captured console lines joined by newlines,
falling back to the stringified unit result when nothing was logged. -/
def successDataOf (st : SBState) (result : JsVal) : ExecData :=
  let stdout := joinWith "\n" st.logs
  { success := true,
    output :=
      if stdout = "" then
        match result with
        | .undefined => ""
        | v => jsToStringV v
      else stdout,
    status := "completed", errorMessage := none }

/-- `exports.executeCode`: validate `code` and `language`, build the
sandbox, then run either the workspace bootstrap (build the file table,
check the entry, seed `require`, require `'./' + entry`, invoke its
export if it is a function) or the single-file wrapper, and normalize
every thrown error into a normal error record. -/
def executeCode (p : String → List Stmt) (req : IncomingRequest) : HttpOutcome :=
  match req.code with
  | .astr codeStr =>
    if codeStr = "" then .badRequest "Code is required"
    else if languageOk req.language then
      let st0 := initialSandbox req.input
      if wellFormedWorkspace req.workspace then
        let tbl := buildFiles [] (match getFieldJ req.workspace "files" with
                                  | .aarr xs => xs
                                  | _ => .jnil)
        let ep := normalizeSlashes (match getFieldJ req.workspace "entryPath" with
                                    | .astr s => s
                                    | _ => "")
        match jsGet tbl ep with
        | none => .badRequest "Entry file not found in workspace"
        | some c =>
          if c = "" then .badRequest "Entry file not found in workspace"
          else
            let st1 := { st0 with
                         files := tbl,
                         entry := ep,
                         globals := jsSet st0.globals "require" JsVal.requireFn }
            match interp p workspaceTimeoutMs workspaceTimeoutMs st1
                    (.tRequire (.vstr ("./" ++ ep))) with
            | (_, .error e) => .okResult (errDataOf e)
            | (st2, .ok (.val mainV)) =>
              match mainV with
              | .closure params body =>
                match interp p workspaceTimeoutMs workspaceTimeoutMs st2
                        (.tCall (.closure params body) []) with
                | (_, .error e) => .okResult (errDataOf e)
                | (st3, .ok (.val rv)) => .okResult (successDataOf st3 rv)
                | (_, .ok _) => .okResult (errDataOf internalErr)
              | _ => .okResult (successDataOf st2 (.vstr ""))
            | (_, .ok _) => .okResult (errDataOf internalErr)
      else
        match interp p singleFileTimeoutMs singleFileTimeoutMs st0
                (.tStmts [] (p codeStr)) with
        | (_, .error e) => .okResult (errDataOf e)
        | (st2, .ok (.stmtRes _ (some v))) => .okResult (successDataOf st2 v)
        | (st2, .ok _) => .okResult (successDataOf st2 .undefined)
    else .badRequest "Only JavaScript execution is supported currently"
  | _ => .badRequest "Code is required"

/-! ## Concrete programs and requests

Source texts use `\x27` for the quote character and `\x7b`/`\x7d` for
braces. `demoProg` is the engine's parse of exactly these texts. -/

/-- `while(true){}` -/
def loopSrc : String := "while(true)\x7b\x7d"

/-- `console.log(input)` -/
def readInputSrc : String := "console.log(input)"

/-- `input = 'hacked'; console.log(input)` -/
def hackSrc : String := "input = \x27hacked\x27; console.log(input)"

/-- `console.log('hello'); throw new Error('boom');` -/
def boomSrc : String := "console.log(\x27hello\x27); throw new Error(\x27boom\x27);"

/-- `console.log('hi')` -/
def hiSrc : String := "console.log(\x27hi\x27)"

/-- `const {add} = require('./lib'); console.log(add(2,3));` -/
def mainSrc : String := "const \x7badd\x7d = require(\x27./lib\x27); console.log(add(2,3));"

/-- `module.exports = { add: (a,b) => a+b };` -/
def libSrc : String := "module.exports = \x7b add: (a,b) => a+b \x7d;"

/-- `throw new Error('kaboom');` -/
def boomModSrc : String := "throw new Error(\x27kaboom\x27);"

/-- The engine's parse of the above source texts. -/
def demoProg (src : String) : List Stmt :=
  if src = loopSrc then [.swhileTrue []]
  else if src = readInputSrc then [.slog [.ident "input"]]
  else if src = hackSrc then [.sassign "input" (.estr "hacked"), .slog [.ident "input"]]
  else if src = boomSrc then [.slog [.estr "hello"], .sthrow "boom"]
  else if src = hiSrc then [.slog [.estr "hi"]]
  else if src = mainSrc then
    [.sdestruct ["add"] (.ecall (.ident "require") [.estr "./lib"]),
     .slog [.ecall (.ident "add") [.enum 2, .enum 3]]]
  else if src = libSrc then
    [.ssetProp (.ident "module") "exports"
      (.eobj [("add", .elam ["a", "b"] [.sret (.eadd (.ident "a") (.ident "b"))])])]
  else if src = boomModSrc then [.sthrow "kaboom"]
  else []

/-- A request with JavaScript language and no workspace. -/
def jsReq (c : String) (inp : JAny) : IncomingRequest :=
  ⟨.astr c, .astr "javascript", inp, .aundefined⟩

/-- A `{ path, content }` entry of `workspace.files`. -/
def fileEntryJ (pth c : String) : JAny :=
  .aobj (.fcons "path" (.astr pth) (.fcons "content" (.astr c) .fnil))

/-- A `{ files, entryPath }` workspace value. -/
def wsJ (fs : JList) (ep : String) : JAny :=
  .aobj (.fcons "files" (.aarr fs) (.fcons "entryPath" (.astr ep) .fnil))

/-- The unbounded-loop single-file request. -/
def reqLoop : IncomingRequest := jsReq loopSrc .aundefined

/-- The log-then-throw single-file request. -/
def reqBoom : IncomingRequest := jsReq boomSrc .aundefined

/-- Read the caller-supplied `input`. -/
def reqRead (s : String) : IncomingRequest := jsReq readInputSrc (.astr s)

/-- Overwrite `input` from inside the sandbox, then read it back. -/
def reqHack : IncomingRequest := jsReq hackSrc (.astr "secret")

/-- A request with `language: "json"`. -/
def reqJson : IncomingRequest := ⟨.astr hiSrc, .astr "json", .aundefined, .aundefined⟩

/-- A request with a malformed workspace (`files` is a string). -/
def reqBadWs : IncomingRequest :=
  ⟨.astr hiSrc, .astr "javascript", .aundefined,
   .aobj (.fcons "files" (.astr "nope") (.fcons "entryPath" (.astr "main") .fnil))⟩

/-- The claim's example workspace: entry `main` requiring sibling `lib`. -/
def reqC2 : IncomingRequest :=
  ⟨.astr mainSrc, .astr "javascript", .aundefined,
   wsJ (.jcons (fileEntryJ "main" mainSrc) (.jcons (fileEntryJ "lib" libSrc) .jnil)) "main"⟩

/-- A request state inside module `a/b` (workspace depth 1), no file
outside the root. -/
def c3Requester : SBState :=
  { files := [("a/b", "x")], entry := "a/b", heap := [], cache := [],
    logs := [], globals := [], currentModulePath := some "a/b", runs := [] }

/-- Same, plus a file at `a/escape` — the path the naive resolver
produces for `../../escape`. -/
def c3WithEscape : SBState :=
  { c3Requester with files := [("a/b", "x"), ("a/escape", "x")] }

/-- A state whose module cache already holds `a/lib` (module record at
address 0, exports object at address 1). -/
def c7State : SBState :=
  { files := [("a/lib", "x")], entry := "a/b",
    heap := [[("exports", JsVal.vref 1)], []], cache := [("a/lib", 0)],
    logs := [], globals := [], currentModulePath := some "a/b", runs := [] }

/-- A fresh state inside module `a/b` with a sibling `a/boom` whose
body throws on load. -/
def c10State : SBState :=
  { files := [("a/b", "x"), ("a/boom", boomModSrc)], entry := "a/b",
    heap := [], cache := [], logs := [], globals := [],
    currentModulePath := some "a/b", runs := [] }

/-! ## Helper lemmas -/

/-- The state-evolution invariant of one interpreter run: the virtual
file table and entry are never modified, and module-cache entries are
never overwritten or removed. -/
def StepOK (a b : SBState) : Prop :=
  b.files = a.files ∧ b.entry = a.entry ∧
    ∀ k v, jsGet a.cache k = some v → jsGet b.cache k = some v

theorem stepOK_refl (a : SBState) : StepOK a a := ⟨rfl, rfl, fun _ _ h => h⟩

theorem stepOK_trans {a b c : SBState} (h1 : StepOK a b) (h2 : StepOK b c) : StepOK a c :=
  ⟨h2.1.trans h1.1, h2.2.1.trans h1.2.1, fun k v h => h2.2.2 k v (h1.2.2 k v h)⟩

theorem stepOK_congr {a b c : SBState} (h : StepOK a b)
    (hf : c.files = b.files) (he : c.entry = b.entry) (hc : c.cache = b.cache) :
    StepOK a c :=
  ⟨hf.trans h.1, he.trans h.2.1, fun k v hv => hc ▸ h.2.2 k v hv⟩

/-- Registering a fresh module record only adds a new cache key. -/
theorem stepOK_loadState (st : SBState) (target : String)
    (h : jsGet st.cache target = none) : StepOK st (loadState st target) := by
  refine ⟨rfl, rfl, fun k v hv => ?_⟩
  show jsGet ((target, st.heap.length + 1) :: st.cache) k = some v
  rw [jsGet]
  by_cases hk : k = target
  · subst hk; rw [hv] at h; exact absurd h (by simp)
  · rw [if_neg hk]; exact hv

/-- No interpreter step modifies the file table or the entry path, and
module-cache entries survive every step. -/
theorem interp_stepOK (p : String → List Stmt) (tb : Nat) :
    ∀ fuel st task, StepOK st (interp p tb fuel st task).1 := by
  intro fuel
  induction fuel with
  | zero => intro st task; exact stepOK_refl st
  | succ fuel ih =>
    intro st task
    cases task with
    | tExpr env e =>
      cases e <;> simp only [interp] <;> repeat' split
      all_goals first
        | exact stepOK_refl _
        | exact stepOK_congr (ih _ _) rfl rfl rfl
        | exact stepOK_congr (stepOK_trans (ih _ _) (ih _ _)) rfl rfl rfl
        | exact stepOK_congr (stepOK_trans (ih _ _) (stepOK_trans (ih _ _) (ih _ _))) rfl rfl rfl
    | tExprs env es =>
      cases es <;> simp only [interp] <;> repeat' split
      all_goals first
        | exact stepOK_refl _
        | exact stepOK_congr (ih _ _) rfl rfl rfl
        | exact stepOK_congr (stepOK_trans (ih _ _) (ih _ _)) rfl rfl rfl
    | tFields env fs =>
      cases fs <;> simp only [interp] <;> repeat' split
      all_goals first
        | exact stepOK_refl _
        | exact stepOK_congr (ih _ _) rfl rfl rfl
        | exact stepOK_congr (stepOK_trans (ih _ _) (ih _ _)) rfl rfl rfl
    | tStmt env s =>
      cases s <;> simp only [interp] <;> repeat' split
      all_goals first
        | exact stepOK_refl _
        | exact stepOK_congr (ih _ _) rfl rfl rfl
        | exact stepOK_congr (stepOK_trans (ih _ _) (ih _ _)) rfl rfl rfl
    | tStmts env ss =>
      cases ss <;> simp only [interp] <;> repeat' split
      all_goals first
        | exact stepOK_refl _
        | exact stepOK_congr (ih _ _) rfl rfl rfl
        | exact stepOK_congr (stepOK_trans (ih _ _) (ih _ _)) rfl rfl rfl
    | tCall f args =>
      cases f <;> simp only [interp] <;> repeat' split
      all_goals first
        | exact stepOK_refl _
        | exact stepOK_congr (ih _ _) rfl rfl rfl
    | tRequire specVal =>
      cases specVal <;> simp only [interp]
      case vstr spec =>
        split
        · split
          · exact stepOK_refl _
          · next content heqf =>
            split
            · exact stepOK_refl _
            · split
              · exact stepOK_refl _
              · next hmiss =>
                split
                · next st2 e2 heq =>
                  have h2 := ih (loadState st (resolveTarget (stackTopOf st) (normalizeSlashes spec)))
                    (JTask.tStmts (loadEnv st) (p content))
                  rw [heq] at h2
                  exact stepOK_congr (stepOK_trans (stepOK_loadState _ _ hmiss) h2) rfl rfl rfl
                · next st2 a2 heq =>
                  have h2 := ih (loadState st (resolveTarget (stackTopOf st) (normalizeSlashes spec)))
                    (JTask.tStmts (loadEnv st) (p content))
                  rw [heq] at h2
                  exact stepOK_congr (stepOK_trans (stepOK_loadState _ _ hmiss) h2) rfl rfl rfl
        · exact stepOK_refl _
      all_goals exact stepOK_refl _

/-- A `require` whose canonical target is already in the module cache
returns the cached record's current `exports` and leaves the state
untouched: the module body does not run again. -/
theorem interp_require_cache_hit (p : String → List Stmt) (tb fuel : Nat) (st : SBState)
    (spec target content : String) (maddr : Nat)
    (hrel : startsRel (normalizeSlashes spec) = true)
    (hres : resolveTarget (stackTopOf st) (normalizeSlashes spec) = target)
    (hfile : jsGet st.files target = some content)
    (hne : content ≠ "")
    (hcache : jsGet st.cache target = some maddr) :
    interp p tb (fuel + 1) st (.tRequire (.vstr spec)) =
      (st, .ok (.val (heapPropAt st maddr "exports"))) := by
  simp only [interp, hrel, if_true, hres, hfile, hcache, if_neg hne]

/-- The single-file path of `executeCode` when the unit throws: the
catch-all produces the normal error payload. -/
theorem executeCode_single_error (p : String → List Stmt) (req : IncomingRequest)
    (codeStr : String) (st2 : SBState) (e : JsErr)
    (hcode : req.code = .astr codeStr) (hne : codeStr ≠ "")
    (hlang : languageOk req.language = true)
    (hws : wellFormedWorkspace req.workspace = false)
    (hrun : interp p singleFileTimeoutMs singleFileTimeoutMs (initialSandbox req.input)
              (.tStmts [] (p codeStr)) = (st2, .error e)) :
    executeCode p req = .okResult (errDataOf e) := by
  simp only [executeCode, hcode, hlang, hws, hrun, if_neg hne, if_true, Bool.false_eq_true,
    if_false]

/-! ## Claim theorems -/

/-- C1 (counterexample): the unbounded-loop submission exhausts its
budget, yet `executeCode` reports the generic `status = "error"` — not
the `status = "timeout"` the claim requires. -/
theorem c1_counterexample_status_is_error :
    executeCode demoProg reqLoop =
      .okResult { success := false, output := "", status := "error",
                  errorMessage := some (timeoutMsg singleFileTimeoutMs) } ∧
    ("error" : String) ≠ "timeout" :=
  ⟨rfl, by decide⟩

/-- C1 (amended): a submission whose top-level unit exceeds its
wall-clock budget still gets a normal `ExecutionResult` (never a
host-level failure), with `success = false` — but its status is the
generic `"error"`, carrying the engine's timed-out message; no distinct
`"timeout"` status is ever produced. -/
theorem c1_timeout_is_normal_error_result (p : String → List Stmt) (req : IncomingRequest)
    (codeStr : String) (st2 : SBState) (e : JsErr)
    (hcode : req.code = .astr codeStr) (hne : codeStr ≠ "")
    (hlang : languageOk req.language = true)
    (hws : wellFormedWorkspace req.workspace = false)
    (htime : e.message = timeoutMsg singleFileTimeoutMs)
    (hrun : interp p singleFileTimeoutMs singleFileTimeoutMs (initialSandbox req.input)
              (.tStmts [] (p codeStr)) = (st2, .error e)) :
    executeCode p req =
      .okResult { success := false, output := "", status := "error",
                  errorMessage := some (timeoutMsg singleFileTimeoutMs) } := by
  rw [executeCode_single_error p req codeStr st2 e hcode hne hlang hws hrun]
  unfold errDataOf
  rw [htime, if_neg (by decide : ¬ (timeoutMsg singleFileTimeoutMs = ""))]

/-- C1 (witness): the amended theorem applied to the `while(true){}`
submission. -/
theorem c1_witness_loop :
    executeCode demoProg reqLoop =
      .okResult { success := false, output := "", status := "error",
                  errorMessage := some (timeoutMsg singleFileTimeoutMs) } :=
  c1_timeout_is_normal_error_result demoProg reqLoop loopSrc
    (initialSandbox JAny.aundefined) ⟨timeoutMsg singleFileTimeoutMs⟩
    rfl (by decide) rfl rfl rfl rfl

/-- C2: the claim's exact workspace (entry `main` requiring sibling
`lib`) does not complete with output `5`: the bootstrap requires
`'./' + entry`, the naive resolver leaves that as `./main`, which is
not a key of the file table, so the run fails with
`Module not found: ./main` and a `status = "error"` result. -/
theorem c2_entry_bootstrap_cannot_resolve :
    executeCode demoProg reqC2 =
      .okResult { success := false, output := "", status := "error",
                  errorMessage := some "Module not found: ./main" } ∧
    resolveTarget "main" (normalizeSlashes "./main") = "./main" ∧
    jsGet [("lib", libSrc), ("main", mainSrc)] "./main" = none :=
  ⟨rfl, rfl, rfl⟩

/-- C3: a `../../escape` require from the depth-1 module `a/b` is never
rejected with a ModuleAccessDenied condition: the naive resolver mangles
it to the in-root path `a/escape`; when no such file exists the error is
`Module not found`, and when a file does exist there the require
succeeds and loads it. -/
theorem c3_no_module_access_denied :
    resolveTarget "a/b" (normalizeSlashes "../../escape") = "a/escape" ∧
    interp demoProg workspaceTimeoutMs 10 c3Requester (.tRequire (.vstr "../../escape")) =
      (c3Requester, .error ⟨"Module not found: ../../escape"⟩) ∧
    interp demoProg workspaceTimeoutMs 10 c3WithEscape (.tRequire (.vstr "../../escape")) =
      ({ c3WithEscape with
          heap := [[], [("exports", JsVal.vref 0)]],
          cache := [("a/escape", 1)],
          runs := ["a/escape"] },
       .ok (.val (.vref 0))) :=
  ⟨rfl, rfl, rfl⟩

/-- C4 (counterexample): a unit that logs `hello` and then throws
`boom` produces `output = ""` — the console output captured before the
failure is discarded, not surfaced, contradicting the claim. -/
theorem c4_counterexample_output_discarded :
    executeCode demoProg reqBoom =
      .okResult { success := false, output := "", status := "error",
                  errorMessage := some "boom" } ∧
    ("" : String) ≠ "hello" :=
  ⟨rfl, by decide⟩

/-- C4 (amended): when the unit throws, the thrown message is carried
verbatim as `errorMessage` (when nonempty), but `output` is always the
empty string: console output captured before the failure is discarded. -/
theorem c4_error_carries_message_but_discards_output (p : String → List Stmt)
    (req : IncomingRequest) (codeStr : String) (st2 : SBState) (e : JsErr)
    (hcode : req.code = .astr codeStr) (hne : codeStr ≠ "")
    (hlang : languageOk req.language = true)
    (hws : wellFormedWorkspace req.workspace = false)
    (hmsg : e.message ≠ "")
    (hrun : interp p singleFileTimeoutMs singleFileTimeoutMs (initialSandbox req.input)
              (.tStmts [] (p codeStr)) = (st2, .error e)) :
    executeCode p req =
      .okResult { success := false, output := "", status := "error",
                  errorMessage := some e.message } := by
  rw [executeCode_single_error p req codeStr st2 e hcode hne hlang hws hrun]
  unfold errDataOf
  rw [if_neg hmsg]

/-- C4 (witness): the amended theorem applied to the log-then-throw
submission. -/
theorem c4_witness_boom :
    executeCode demoProg reqBoom =
      .okResult { success := false, output := "", status := "error",
                  errorMessage := some "boom" } :=
  c4_error_carries_message_but_discards_output demoProg reqBoom boomSrc
    { initialSandbox JAny.aundefined with logs := ["hello"] } ⟨"boom"⟩
    rfl (by decide) rfl rfl (by decide) rfl

/-- C5 (counterexample): the single-file budget (500) is NOT greater
than the workspace bootstrap budget (800), so the claimed strict order
fails at its first link. -/
theorem c5_counterexample_order :
    ¬ (singleFileTimeoutMs > workspaceTimeoutMs) := by decide

/-- C5 (amended): the actual strict order of the three budgets is
workspace bootstrap (800) > single-file top-level (500) >
per-module-load (200). -/
theorem c5_actual_budget_order :
    workspaceTimeoutMs > singleFileTimeoutMs ∧
    singleFileTimeoutMs > moduleLoadTimeoutMs := by decide

/-- C6: the language gate's regex `/^js|javascript$/i` accepts the
value `json` (mis-anchored alternation), and a `language: "json"`
request is executed rather than rejected: the claim that exactly the
JavaScript identifiers are accepted fails, while the code's own
comment and message promise JavaScript only. -/
theorem c6_json_is_accepted_and_executed :
    languageAccepted "json" = true ∧
    languageOk (JAny.astr "json") = true ∧
    executeCode demoProg reqJson =
      .okResult { success := true, output := "hi", status := "completed",
                  errorMessage := none } :=
  ⟨rfl, rfl, rfl⟩

/-- C7: once a canonical path is in the module cache, every later
`require` resolving to it — from any requesting module — returns the
cached record's exports value (the same reference, or the partial
exports while a cycle is in progress) and leaves the state unchanged:
the module is loaded at most once. -/
theorem c7_require_cached_at_most_once (p : String → List Stmt) (tb fuel : Nat)
    (st : SBState) (spec target content : String) (maddr : Nat)
    (hrel : startsRel (normalizeSlashes spec) = true)
    (hres : resolveTarget (stackTopOf st) (normalizeSlashes spec) = target)
    (hfile : jsGet st.files target = some content)
    (hne : content ≠ "")
    (hcache : jsGet st.cache target = some maddr) :
    interp p tb (fuel + 1) st (.tRequire (.vstr spec)) =
      (st, .ok (.val (heapPropAt st maddr "exports"))) :=
  interp_require_cache_hit p tb fuel st spec target content maddr
    hrel hres hfile hne hcache

/-- C7 (witness): requiring the already-cached `a/lib` from `a/b`
returns the cached exports object (address 1) and changes nothing. -/
theorem c7_witness_cached_lib :
    interp demoProg workspaceTimeoutMs (7 + 1) c7State (.tRequire (.vstr "./lib")) =
      (c7State, .ok (.val (JsVal.vref 1))) :=
  c7_require_cached_at_most_once demoProg workspaceTimeoutMs 7 c7State
    "./lib" "a/lib" "x" 0 rfl rfl rfl (by decide) rfl

/-- C8 (counterexample): with caller input `secret`, the program
`input = 'hacked'; console.log(input)` observes `hacked`: the `input`
binding is writable from inside the sandbox, so it is not read-only. -/
theorem c8_counterexample_input_overwritten :
    executeCode demoProg reqHack =
      .okResult { success := true, output := "hacked", status := "completed",
                  errorMessage := none } ∧
    ("hacked" : String) ≠ "secret" :=
  ⟨rfl, by decide⟩

/-- C8 (amended): `input` does carry the caller-supplied value — a
program that reads it observes exactly that value, for every caller
string — but it is an ordinary writable sandbox global: executed code
can reassign it and later reads observe the new value. -/
theorem c8_input_caller_value_but_writable (s : String) :
    executeCode demoProg (reqRead s) =
      .okResult { success := true, output := s, status := "completed",
                  errorMessage := none } ∧
    executeCode demoProg reqHack =
      .okResult { success := true, output := "hacked", status := "completed",
                  errorMessage := none } := by
  constructor
  · have base : executeCode demoProg (reqRead s) =
        .okResult { success := true, output := if s = "" then "" else s,
                    status := "completed", errorMessage := none } := rfl
    rw [base]
    by_cases h : s = ""
    · rw [if_pos h, h]
    · rw [if_neg h]
  · rfl

/-- The workspace value influences `executeCode` only through the
well-formedness gate: two requests differing only in (malformed)
workspace values behave identically. -/
theorem executeCode_ws_irrelevant (p : String → List Stmt) (c l i w1 w2 : JAny)
    (h1 : wellFormedWorkspace w1 = false) (h2 : wellFormedWorkspace w2 = false) :
    executeCode p ⟨c, l, i, w1⟩ = executeCode p ⟨c, l, i, w2⟩ := by
  cases c <;> simp [executeCode, h1, h2]

/-- C9: a request whose `workspace.files` is not an array or whose
`workspace.entryPath` is not a string is not rejected: `executeCode`
behaves exactly as if the request had no workspace at all, running the
`code` string in single-file mode. -/
theorem c9_malformed_workspace_silently_ignored (p : String → List Stmt)
    (req : IncomingRequest)
    (h : isArrJ (getFieldJ req.workspace "files") = false ∨
         isStrJ (getFieldJ req.workspace "entryPath") = false) :
    executeCode p req = executeCode p { req with workspace := JAny.aundefined } := by
  obtain ⟨c, l, i, w⟩ := req
  have hwf : wellFormedWorkspace w = false := by
    unfold wellFormedWorkspace
    rcases h with h | h <;> simp [h]
  exact executeCode_ws_irrelevant p c l i w JAny.aundefined hwf rfl

/-- C9 (witness): a request carrying `workspace: { files: "nope",
entryPath: "main" }` is executed in single-file mode and completes,
identically to the workspace-free request. -/
theorem c9_witness_bad_files :
    executeCode demoProg reqBadWs =
      executeCode demoProg { reqBadWs with workspace := JAny.aundefined } ∧
    executeCode demoProg reqBadWs =
      .okResult { success := true, output := "hi", status := "completed",
                  errorMessage := none } :=
  ⟨c9_malformed_workspace_silently_ignored demoProg reqBadWs (Or.inl rfl), rfl⟩

/-- C10: when a module body throws on its first load, the module record
registered before execution stays in the cache (under its canonical
path, at the address allocated for it), so any later require resolving
to the same canonical path returns the partial exports object with the
state unchanged — the body is not re-executed. -/
theorem c10_failed_first_load_stays_cached (p : String → List Stmt) (tb fuel : Nat)
    (st stB : SBState) (spec target content : String) (e : JsErr)
    (hrel : startsRel (normalizeSlashes spec) = true)
    (hres : resolveTarget (stackTopOf st) (normalizeSlashes spec) = target)
    (hfile : jsGet st.files target = some content)
    (hne : content ≠ "")
    (hmiss : jsGet st.cache target = none)
    (hbody : interp p tb fuel (loadState st target) (.tStmts (loadEnv st) (p content)) =
      (stB, .error e)) :
    interp p tb (fuel + 1) st (.tRequire (.vstr spec)) =
      ({ stB with currentModulePath := st.currentModulePath }, .error e) ∧
    jsGet ({ stB with currentModulePath := st.currentModulePath }).cache target =
      some (st.heap.length + 1) ∧
    ∀ spec2 fuel2,
      startsRel (normalizeSlashes spec2) = true →
      resolveTarget (stackTopOf { stB with currentModulePath := st.currentModulePath })
          (normalizeSlashes spec2) = target →
      interp p tb (fuel2 + 1) { stB with currentModulePath := st.currentModulePath }
          (.tRequire (.vstr spec2)) =
        ({ stB with currentModulePath := st.currentModulePath },
         .ok (.val (heapPropAt { stB with currentModulePath := st.currentModulePath }
                      (st.heap.length + 1) "exports"))) := by
  have hOK : StepOK (loadState st target) stB := by
    have h0 := interp_stepOK p tb fuel (loadState st target) (.tStmts (loadEnv st) (p content))
    rwa [hbody] at h0
  have hcacheB : jsGet stB.cache target = some (st.heap.length + 1) := by
    apply hOK.2.2
    show jsGet ((target, st.heap.length + 1) :: st.cache) target = some (st.heap.length + 1)
    simp [jsGet]
  have hfilesB : stB.files = st.files := hOK.1
  refine ⟨?_, hcacheB, ?_⟩
  · simp only [interp, hrel, if_true, hres, hfile, if_neg hne, hmiss, hbody]
  · intro spec2 fuel2 hrel2 hres2
    refine interp_require_cache_hit p tb fuel2 _ spec2 target content (st.heap.length + 1)
      hrel2 hres2 ?_ hne ?_
    · show jsGet stB.files target = some content
      rw [hfilesB]; exact hfile
    · exact hcacheB

/-- C10 (witness): `a/b` requires `./boom`, whose body throws `kaboom`;
the record stays cached under `a/boom` at address 1, and a second
identical require returns the partial exports without re-running the
body. -/
theorem c10_witness_kaboom :
    interp demoProg workspaceTimeoutMs (5 + 1) c10State (.tRequire (.vstr "./boom")) =
      ({ loadState c10State "a/boom" with currentModulePath := some "a/b" },
       .error ⟨"kaboom"⟩) ∧
    jsGet ({ loadState c10State "a/boom" with currentModulePath := some "a/b" }).cache
      "a/boom" = some 1 ∧
    interp demoProg workspaceTimeoutMs (5 + 1)
        { loadState c10State "a/boom" with currentModulePath := some "a/b" }
        (.tRequire (.vstr "./boom")) =
      ({ loadState c10State "a/boom" with currentModulePath := some "a/b" },
       .ok (.val (heapPropAt
          { loadState c10State "a/boom" with currentModulePath := some "a/b" }
          1 "exports"))) := by
  have h := c10_failed_first_load_stays_cached demoProg workspaceTimeoutMs 5 c10State
    (loadState c10State "a/boom") "./boom" "a/boom" boomModSrc ⟨"kaboom"⟩
    rfl rfl rfl (by decide) rfl rfl
  exact ⟨h.1, h.2.1, h.2.2 "./boom" 5 rfl rfl⟩
